import Mathlib

/-!
Verification of the learn-cd diffusion-policy pipelines.

The development shallowly embeds the evaluation/rollout logic of the three
pipelines (`pipelines/dbc_kitchen_old.py`, `pipelines/diffusion_policy/dp_kitchen.py`,
`pipelines/3d_diffusion_policy/dp3_libero.py`): tensor shapes are lists of
natural numbers, dictionaries become structures, neural networks and
environments are abstract functions, and control flow is translated directly.
-/

namespace DbcKitchen

/-- numpy element count of a tensor shape. -/
def numel (shape : List Nat) : Nat := shape.foldr (fun a b => a * b) 1

/-- numpy reshape succeeds exactly when the element counts of the two shapes agree. -/
def reshapeOk (s t : List Nat) : Prop := numel s = numel t

instance (s t : List Nat) : Decidable (reshapeOk s t) := by
  unfold reshapeOk
  infer_instance

/-- Shape of the prior tensor built in `inference` (dbc_kitchen_old.py, lines 76-87):
`pearce_mlp` builds a zero prior of shape (num_envs, action_dim), `dit` builds one of
shape (num_envs, action_steps, action_dim).  Any other nn falls through the
un-raised `ValueError("fatal nn")` branch leaving the prior unbound, which we model
as `none`. -/
def priorShape (nn : String) (num_envs action_steps action_dim : Nat) : Option (List Nat) :=
  if nn = "pearce_mlp" then some [num_envs, action_dim]
  else if nn = "dit" then some [num_envs, action_steps, action_dim]
  else none

/-- Modelled from the spec: the diffusion sampler (`agent.sample` / `agent.sample_x`,
in `cleandiffuser.diffusion`, which is not under src/) "predicts action sequences"
by denoising the given prior, so its sample has the shape of the prior — as the
source comments record: "(num_envs, action_dim)" for pearce_mlp and
"(num_envs, args.action_steps, action_dim)" for dit. -/
def sampleShape (prior : List Nat) : List Nat := prior

/-- Modelled from the spec: `clip` and the normalizer's `unnormalize`
(in `cleandiffuser.dataset`, not under src/) act elementwise, preserving the shape. -/
def unnormalizeShape (s : List Nat) : List Nat := s

/-- The reshape at dbc_kitchen_old.py line 112: the unnormalized action prediction is
reshaped to (num_envs, 1, action_dim) whenever a prior was built. -/
def actionReshapeOk (nn : String) (num_envs action_steps action_dim : Nat) : Prop :=
  ∀ s, priorShape nn num_envs action_steps action_dim = some s →
    reshapeOk (unnormalizeShape (sampleShape s)) [num_envs, 1, action_dim]

/-- Solver selection in `inference` (dbc_kitchen_old.py, lines 53-60).  The outer
`Option` records whether the local variable `solver` was assigned at all; the inner
`Option String` is the solver value itself (`None` for ddpm). -/
def inferenceSolver (diffusion : String) : Option (Option String) :=
  if diffusion = "ddpm" then some none
  else if diffusion = "ddim" then some (some "ddim")
  else if diffusion = "dpm" then some (some "ode_dpmpp_2")
  else if diffusion = "edm" then some (some "euler")
  else none

/-- Keyword arguments of the `DDPM` constructor call in `pipeline`
(dbc_kitchen_old.py, lines 215-225). -/
structure DDPMInit where
  diffusion_steps : Nat
  ema_rate : ℚ
  lr : ℚ

/-- The DDPM agent construction: `diffusion_steps=args.sample_steps, ema_rate=0.9999,
optim_params={"lr": args.lr}`. -/
def dbcDDPMAgent (sample_steps : Nat) (lr : ℚ) : DDPMInit :=
  ⟨sample_steps, 9999 / 10000, lr⟩

/-- Keyword arguments of a sampling call made by `inference`. -/
structure SampleCall where
  n_samples : Nat
  sample_steps : Nat
  solver : Option String
  w_cfg : ℚ
  use_ema : Bool
  extra_sample_steps : Option Nat

/-- The sampling call `inference` makes each round (dbc_kitchen_old.py, lines 88-108):
`agent.sample` when `args.diffusion_x` is false, `agent.sample_x` (with
`extra_sample_steps`) when it is true; both with `w_cfg=1.0, use_ema=True`. -/
def dbcSampleCall (diffusion_x : Bool) (num_envs sample_steps : Nat)
    (solver : Option String) (extra_sample_steps : Nat) : SampleCall :=
  if diffusion_x = false then ⟨num_envs, sample_steps, solver, 1, true, none⟩
  else ⟨num_envs, sample_steps, solver, 1, true, some extra_sample_steps⟩

/-- Final value of the step counter `t` of one episode rollout
(dbc_kitchen_old.py, lines 64-115): `t` starts at 0, the loop runs while
`t < args.max_episode_steps` and every iteration adds `args.action_steps`.
The source has no positivity guard; the `0 < action_steps` conjunct here only
rules out the non-terminating `action_steps = 0` case and agrees with the
source whenever `action_steps ≥ 1`. -/
def rolloutFinalT (max_episode_steps action_steps t : Nat) : Nat :=
  if h : 0 < action_steps ∧ t < max_episode_steps then
    rolloutFinalT max_episode_steps action_steps (t + action_steps)
  else t
termination_by max_episode_steps - t
decreasing_by omega

/-- Number of sampling rounds (loop iterations) the same loop performs from
counter value `t`. -/
def rolloutRounds (max_episode_steps action_steps t : Nat) : Nat :=
  if h : 0 < action_steps ∧ t < max_episode_steps then
    rolloutRounds max_episode_steps action_steps (t + action_steps) + 1
  else 0
termination_by max_episode_steps - t
decreasing_by omega

/-- The per-episode `kit_success` row built from the completed-task count `num`
(dbc_kitchen_old.py, lines 118-121): `[1 if i < num else 0 for i in range(7)]`. -/
def kit_success (num : Nat) : List ℚ :=
  (List.range 7).map (fun i => if i < num then 1 else 0)

/-- The reported metric `p_{i+1}` (dbc_kitchen_old.py, lines 139-142): the mean of
entry `i` of `kit_success` over all recorded episodes, whose completed-task
counts are `successes`. -/
def p_metric (successes : List Nat) (i : Nat) : ℚ :=
  (successes.map (fun num => (kit_success num).getD i 0)).sum / (successes.length : ℚ)

end DbcKitchen

namespace DpKitchen

/-- Config constant `To` (dp_kitchen.py, line 38): observation horizon. -/
def To : Nat := 2

/-- Config constant `Ta` (dp_kitchen.py, line 39): action horizon. -/
def Ta : Nat := 16

/-- Config constant `num_act_exec` (dp_kitchen.py, line 40). -/
def num_act_exec : Nat := 8

/-- Config constant `sampling_steps` (dp_kitchen.py, line 49). -/
def sampling_steps : Nat := 20

/-- Keyword arguments of a `policy.sample` call in the pytorch-lightning pipelines. -/
structure PolicySampleCall where
  solver : Option String
  sample_steps : Nat
  w_cfg : ℚ

/-- The `policy.sample` call of dp_kitchen inference mode (dp_kitchen.py, lines 132-134):
`solver="ddpm", sample_steps=sampling_steps, w_cfg=1.0`. -/
def inferenceSampleCall : PolicySampleCall :=
  ⟨some "ddpm", sampling_steps, 1⟩

/-- The `policy.sample` call of dp_kitchen rendering mode (dp_kitchen.py, lines 186-188). -/
def renderingSampleCall : PolicySampleCall :=
  ⟨some "ddpm", sampling_steps, 1⟩

/-- An item of the underlying `KitchenDataset`: the two array fields the wrapper reads. -/
structure KitchenItem (α β : Type) where
  state : List α
  action : List β

/-- The wrapped dataset, as the `DatasetWrapper` sees it: indexable items, a length,
and arbitrary further named attributes (reached through `__getattr__`). -/
structure PyDataset (α β γ : Type) where
  item : Nat → KitchenItem α β
  length : Nat
  attr : String → γ

/-- The training item the wrapper returns: `{"x0": act, "condition_cfg": obs}`. -/
structure TrainingItem (α β : Type) where
  x0 : List β
  condition_cfg : List α

/-- `DatasetWrapper.__getitem__` (dp_kitchen.py, lines 28-33):
`obs = item["state"][:To]` is `List.take To`; `act = item["action"][-Ta:]` is the
Python negative slice, which for `Ta ≥ 1` keeps the last `min Ta length` entries,
i.e. `List.drop (length - Ta)`. -/
def DatasetWrapper.getItem (ds : PyDataset α β γ) (To Ta idx : Nat) : TrainingItem α β :=
  let item := ds.item idx
  ⟨item.action.drop (item.action.length - Ta), item.state.take To⟩

/-- `DatasetWrapper.__len__` (dp_kitchen.py, lines 22-23). -/
def DatasetWrapper.len (ds : PyDataset α β γ) : Nat := ds.length

/-- `DatasetWrapper.__getattr__` (dp_kitchen.py, lines 25-26): delegation to the
wrapped dataset. -/
def DatasetWrapper.getattr (ds : PyDataset α β γ) (a : String) : γ := ds.attr a

/-- The state the closed-loop inner loop threads: the conditioning observation
buffer `obs` (its `To` time slots, the per-environment axes abstracted away) and
the zero `prior` tensor, defined before the loops and never reassigned. -/
structure EvalState (Obs Prior : Type) where
  obs : List Obs
  prior : Prior

/-- One inner step `i` of the action-execution loop (dp_kitchen.py, lines 137-148):
`env.step(act[:, i])` yields `next_obs = stepObs i`; only when
`i >= num_act_exec - To` is the normalized observation written into buffer slot
`i - num_act_exec + To` (Python integer arithmetic; under the guard this index is
non-negative and equals `i + To - num_act_exec`). -/
def innerStep (normalize : RawObs → Obs) (stepObs : Nat → RawObs)
    (st : EvalState Obs Prior) (i : Nat) : EvalState Obs Prior :=
  if num_act_exec - To ≤ i then
    ⟨st.obs.set (i + To - num_act_exec) (normalize (stepObs i)), st.prior⟩
  else st

/-- The inner loop over the steps `l` with its early break: after executing step `i`
the loop breaks when all environments are done (`doneAfter i`).  Returns the final
state and the list of executed inner steps. -/
def innerLoop (normalize : RawObs → Obs) (stepObs : Nat → RawObs) (doneAfter : Nat → Bool) :
    List Nat → EvalState Obs Prior → EvalState Obs Prior × List Nat
  | [], st => (st, [])
  | i :: rest, st =>
    let st2 := innerStep normalize stepObs st i
    if doneAfter i then (st2, [i])
    else
      let r := innerLoop normalize stepObs doneAfter rest st2
      (r.1, i :: r.2)

/-- The full inner loop `for i in range(num_act_exec)` (dp_kitchen.py, line 137). -/
def runInner (normalize : RawObs → Obs) (stepObs : Nat → RawObs) (doneAfter : Nat → Bool)
    (st : EvalState Obs Prior) : EvalState Obs Prior × List Nat :=
  innerLoop normalize stepObs doneAfter (List.range num_act_exec) st

end DpKitchen

namespace Dp3Libero

/-- Config constant `To` (dp3_libero.py, line 161). -/
def To : Nat := 2

/-- Config constant `Ta` (dp3_libero.py, line 162). -/
def Ta : Nat := 16

/-- Config constant `num_act_exec` (dp3_libero.py, line 163). -/
def num_act_exec : Nat := 8

/-- Config constant `sampling_steps` (dp3_libero.py, line 173). -/
def sampling_steps : Nat := 20

/-- The `policy.sample` call of dp3_libero rendering mode (dp3_libero.py, lines 287-297):
`solver="ddpm", sample_steps=sampling_steps, w_cfg=1.0`. -/
def renderingSampleCall : DpKitchen.PolicySampleCall :=
  ⟨some "ddpm", sampling_steps, 1⟩

/-- The `condition` dict handed to `PointNetAndT5PCLanguageCondition.forward`
(dp3_libero.py, lines 102-106): the point cloud is always read; the three language
entries are looked up with `.get`, so each may be absent. -/
structure PCLangCondDict (PC Emb : Type) where
  pointcloud : PC
  language : Option (List String)
  language_embedding : Option Emb
  language_mask : Option (List Bool)

/-- The dict `forward` returns (dp3_libero.py, lines 127-131). -/
structure CondOut (V S : Type) where
  vec_condition : V
  seq_condition : S
  seq_condition_mask : Option (List Bool)

/-- `PointNetAndT5PCLanguageCondition.forward` (dp3_libero.py, lines 102-131).
The neural components are abstract parameters: `languageEncode` is the frozen T5
encoder `self.language_encode` returning hidden states and the attention mask
(`True` = real token, from the 0/1 int mask via `.to(torch.bool)`); `pcBranch` is
the point-cloud processing of lines 118-122 (PointNet, `To_pos_emb`,
`pc_feat_proj`); `t5Branch` is `self.t5_proj` plus `lang_pos_emb` (lines 124-125).
The assertion of lines 107-109 fires exactly when both `language` and
`language_embedding` are absent, and is modelled as `Except.error`; when
`language` is present the embedding and mask are recomputed from it
(lines 111-112); an existing mask is negated with `torch.logical_not`
(lines 115-116), so `True` marks padding in the output. -/
def PCLangForward (languageEncode : List String → Emb × List Bool)
    (pcBranch : PC → V) (t5Branch : Emb → S)
    (cond : PCLangCondDict PC Emb) : Except String (CondOut V S) :=
  match cond.language, cond.language_embedding with
  | none, none =>
    .error "Either language or language_embedding and language_mask must be provided."
  | some lang, _ =>
    let p := languageEncode lang
    .ok ⟨pcBranch cond.pointcloud, t5Branch p.1, some (p.2.map not)⟩
  | none, some emb =>
    .ok ⟨pcBranch cond.pointcloud, t5Branch emb, cond.language_mask.map (List.map not)⟩

/-- The language-embedding padding/truncation step of the rendering pipeline
(dp3_libero.py, lines 268-273).  `emb` is the encoder output (a list of token
rows, each of width `d`), `mask` the attention mask; `np.pad` appends zero rows
and zero mask entries up to 32, longer outputs are truncated to the first 32. -/
def padTruncLang (d : Nat) (emb : List (List ℚ)) (mask : List ℚ) :
    List (List ℚ) × List ℚ :=
  if emb.length < 32 then
    (emb ++ List.replicate (32 - emb.length) (List.replicate d 0),
     mask ++ List.replicate (32 - mask.length) 0)
  else if 32 < emb.length then
    (emb.take 32, mask.take 32)
  else
    (emb, mask)

end Dp3Libero

/-- Concrete wrapped dataset used to instantiate the `DatasetWrapper` theorems. -/
def sampleKitchenDs : DpKitchen.PyDataset Nat Nat Nat :=
  ⟨fun _ => ⟨[10, 20, 30], [1, 2, 3, 4]⟩, 5, fun a => a.length⟩

/-!  Theorems.  -/

/-- C1 counterexample: with nn = "dit", num_envs = 1, action_steps = 2 and
action_dim = 9 the sampled prediction has 1 * 2 * 9 = 18 elements, so it cannot be
reshaped to (1, 1, 9), which has 9; the claim fails for action_steps = 2. -/
theorem C1_reshape_counterexample :
    ¬ DbcKitchen.actionReshapeOk "dit" 1 2 9 := by
  intro hok
  have h := hok [1, 2, 9] (by decide)
  exact absurd h (by decide)

/-- C1 (amended): in the dbc kitchen inference loop, with num_envs ≥ 1 and
action_dim ≥ 1, the sampled and unnormalized action prediction can be reshaped to
(num_envs, 1, action_dim) for nn = "pearce_mlp" at every action_steps ≥ 1, while
for nn = "dit" it can be reshaped exactly when action_steps = 1. -/
theorem C1_reshape_amended (num_envs action_steps action_dim : Nat)
    (hne : 1 ≤ num_envs) (had : 1 ≤ action_dim) (has : 1 ≤ action_steps) :
    DbcKitchen.actionReshapeOk "pearce_mlp" num_envs action_steps action_dim ∧
    (DbcKitchen.actionReshapeOk "dit" num_envs action_steps action_dim ↔
      action_steps = 1) := by
  have hp : DbcKitchen.priorShape "pearce_mlp" num_envs action_steps action_dim =
      some [num_envs, action_dim] := by
    simp [DbcKitchen.priorShape]
  have hd : DbcKitchen.priorShape "dit" num_envs action_steps action_dim =
      some [num_envs, action_steps, action_dim] := by
    simp [DbcKitchen.priorShape]
  constructor
  · intro s hs
    rw [hp, Option.some.injEq] at hs
    subst hs
    simp only [DbcKitchen.reshapeOk, DbcKitchen.numel, DbcKitchen.sampleShape,
      DbcKitchen.unnormalizeShape, List.foldr_cons, List.foldr_nil, mul_one, one_mul]
  · constructor
    · intro hok
      have h := hok _ hd
      simp only [DbcKitchen.reshapeOk, DbcKitchen.numel, DbcKitchen.sampleShape,
        DbcKitchen.unnormalizeShape, List.foldr_cons, List.foldr_nil, mul_one,
        one_mul] at h
      have h2 : action_steps * action_dim = action_dim :=
        Nat.eq_of_mul_eq_mul_left (by omega) h
      have h3 : action_steps * action_dim = 1 * action_dim := by
        rw [h2, one_mul]
      exact Nat.eq_of_mul_eq_mul_right (by omega) h3
    · intro h1
      subst h1
      intro s hs
      rw [hd, Option.some.injEq] at hs
      subst hs
      simp only [DbcKitchen.reshapeOk, DbcKitchen.numel, DbcKitchen.sampleShape,
        DbcKitchen.unnormalizeShape, List.foldr_cons, List.foldr_nil, mul_one, one_mul]

/-- Witness for C1_reshape_amended at num_envs = 2, action_steps = 3, action_dim = 9. -/
theorem C1_reshape_amended_witness :
    DbcKitchen.actionReshapeOk "pearce_mlp" 2 3 9 ∧
    (DbcKitchen.actionReshapeOk "dit" 2 3 9 ↔ 3 = 1) :=
  C1_reshape_amended 2 3 9 (by decide) (by decide) (by decide)

/-- C2: the solver selected in dbc kitchen inference is None for "ddpm", "ddim" for
"ddim", "ode_dpmpp_2" for "dpm" and "euler" for "edm"; for every other value of
args.diffusion no solver is assigned at all. -/
theorem C2_solver_mapping :
    DbcKitchen.inferenceSolver "ddpm" = some none ∧
    DbcKitchen.inferenceSolver "ddim" = some (some "ddim") ∧
    DbcKitchen.inferenceSolver "dpm" = some (some "ode_dpmpp_2") ∧
    DbcKitchen.inferenceSolver "edm" = some (some "euler") ∧
    ∀ d, d ≠ "ddpm" → d ≠ "ddim" → d ≠ "dpm" → d ≠ "edm" →
      DbcKitchen.inferenceSolver d = none := by
  refine ⟨by decide, by decide, by decide, by decide, ?_⟩
  intro d h1 h2 h3 h4
  simp [DbcKitchen.inferenceSolver, h1, h2, h3, h4]

/-- Witness for C2_solver_mapping at the out-of-range value "euler_maruyama". -/
theorem C2_solver_mapping_witness :
    DbcKitchen.inferenceSolver "euler_maruyama" = none :=
  C2_solver_mapping.2.2.2.2 "euler_maruyama" (by decide) (by decide) (by decide)
    (by decide)

/-- C4: the dbc kitchen DDPM agent is constructed with ema_rate 0.9999, and the
sampling call made during evaluation (agent.sample or agent.sample_x, whichever
diffusion_x selects) always passes use_ema=True. -/
theorem C4_ema_sampling (sample_steps : Nat) (lr : ℚ) (diffusion_x : Bool)
    (num_envs ss : Nat) (solver : Option String) (extra : Nat) :
    (DbcKitchen.dbcDDPMAgent sample_steps lr).ema_rate = 9999 / 10000 ∧
    (DbcKitchen.dbcSampleCall diffusion_x num_envs ss solver extra).use_ema = true := by
  refine ⟨rfl, ?_⟩
  cases diffusion_x <;> rfl

/-- C7: every policy sampling call in the three pipelines — the dbc kitchen call
(either agent.sample or agent.sample_x), the dp kitchen inference-mode and
rendering-mode calls, and the dp3 libero rendering call — uses guidance weight
w_cfg = 1.0. -/
theorem C7_guidance_weight (diffusion_x : Bool) (num_envs sample_steps : Nat)
    (solver : Option String) (extra : Nat) :
    (DbcKitchen.dbcSampleCall diffusion_x num_envs sample_steps solver extra).w_cfg = 1 ∧
    DpKitchen.inferenceSampleCall.w_cfg = 1 ∧
    DpKitchen.renderingSampleCall.w_cfg = 1 ∧
    Dp3Libero.renderingSampleCall.w_cfg = 1 := by
  refine ⟨?_, rfl, rfl, rfl⟩
  cases diffusion_x <;> rfl

/-- The rollout loop performs ceil((m - t) / a) iterations from counter value t. -/
theorem rolloutRounds_eq (a m : Nat) (ha : 0 < a) :
    ∀ t, DbcKitchen.rolloutRounds m a t = (m - t + a - 1) / a := by
  have H : ∀ k t, m - t ≤ k → DbcKitchen.rolloutRounds m a t = (m - t + a - 1) / a := by
    intro k
    induction k with
    | zero =>
      intro t ht
      rw [DbcKitchen.rolloutRounds]
      rw [dif_neg (by omega)]
      have h0 : m - t = 0 := by omega
      rw [h0]
      exact (Nat.div_eq_of_lt (by omega)).symm
    | succ k ih =>
      intro t ht
      rw [DbcKitchen.rolloutRounds]
      by_cases hlt : t < m
      · rw [dif_pos ⟨ha, hlt⟩]
        rw [ih (t + a) (by omega)]
        rcases le_or_lt a (m - t) with hc | hc
        · have h1 : m - (t + a) + a - 1 = m - t - 1 := by omega
          have h2 : m - t + a - 1 = m - t - 1 + a := by omega
          rw [h1, h2, Nat.add_div_right _ ha]
        · have h1 : m - (t + a) + a - 1 = a - 1 := by omega
          rw [h1, Nat.div_eq_of_lt (by omega)]
          have h2 : (m - t + a - 1) / a = 1 :=
            Nat.div_eq_of_lt_le (by omega) (by omega)
          omega
      · rw [dif_neg (by omega)]
        have h0 : m - t = 0 := by omega
        rw [h0]
        exact (Nat.div_eq_of_lt (by omega)).symm
  intro t
  exact H (m - t) t (le_refl _)

/-- The final step counter is the start value plus action_steps per iteration. -/
theorem rolloutFinalT_eq (a m : Nat) :
    ∀ t, DbcKitchen.rolloutFinalT m a t = t + a * DbcKitchen.rolloutRounds m a t := by
  have H : ∀ k t, m - t ≤ k →
      DbcKitchen.rolloutFinalT m a t = t + a * DbcKitchen.rolloutRounds m a t := by
    intro k
    induction k with
    | zero =>
      intro t ht
      rw [DbcKitchen.rolloutFinalT, DbcKitchen.rolloutRounds]
      by_cases hg : 0 < a ∧ t < m
      · omega
      · rw [dif_neg hg, dif_neg hg]
        omega
    | succ k ih =>
      intro t ht
      rw [DbcKitchen.rolloutFinalT, DbcKitchen.rolloutRounds]
      by_cases hg : 0 < a ∧ t < m
      · rw [dif_pos hg, dif_pos hg]
        rw [ih (t + a) (by omega)]
        rw [Nat.mul_add, Nat.mul_one]
        omega
      · rw [dif_neg hg, dif_neg hg]
        omega
  intro t
  exact H (m - t) t (le_refl _)

/-- C5: for action_steps ≥ 1 one dbc kitchen episode rollout terminates after
exactly ceil(max_episode_steps / action_steps) sampling rounds (in Nat arithmetic,
(max_episode_steps + action_steps - 1) / action_steps), and the recorded episode
step count — the final value of t — equals action_steps times that number of
rounds. -/
theorem C5_rollout_termination (max_episode_steps action_steps : Nat)
    (h : 1 ≤ action_steps) :
    DbcKitchen.rolloutRounds max_episode_steps action_steps 0 =
      (max_episode_steps + action_steps - 1) / action_steps ∧
    DbcKitchen.rolloutFinalT max_episode_steps action_steps 0 =
      action_steps *
        ((max_episode_steps + action_steps - 1) / action_steps) := by
  have h1 := rolloutRounds_eq action_steps max_episode_steps h 0
  have h2 := rolloutFinalT_eq action_steps max_episode_steps 0
  rw [Nat.sub_zero] at h1
  refine ⟨h1, ?_⟩
  rw [h2, h1, Nat.zero_add]

/-- Witness for C5_rollout_termination: max_episode_steps = 10, action_steps = 4
gives 3 rounds and a recorded step count of 12. -/
theorem C5_rollout_termination_witness :
    DbcKitchen.rolloutRounds 10 4 0 = (10 + 4 - 1) / 4 ∧
    DbcKitchen.rolloutFinalT 10 4 0 = 4 * ((10 + 4 - 1) / 4) :=
  C5_rollout_termination 10 4 (by decide)

/-- Entry i of a kit_success row is the indicator of i being below both 7 and the
completed-task count. -/
theorem kit_success_getD (n i : Nat) :
    (DbcKitchen.kit_success n).getD i 0 = if i < 7 ∧ i < n then 1 else 0 := by
  unfold DbcKitchen.kit_success
  rcases lt_or_ge i 7 with h | h
  · rw [List.getD_eq_getElem?_getD, List.getElem?_map, List.getElem?_range h]
    by_cases hn : i < n
    · simp [h, hn]
    · simp [h, hn]
  · have hlen : (List.range 7).length ≤ i := by
      rw [List.length_range]
      exact h
    rw [List.getD_eq_getElem?_getD, List.getElem?_map, List.getElem?_eq_none hlen]
    have h7 : ¬ (i < 7 ∧ i < n) := by omega
    simp [h7]

/-- C8: for every completed-task count n, kit_success[i] = 1 if i < n and 0
otherwise (for each of its 7 entries), and the reported per-task success metrics
are monotonically non-increasing in the task index, for every list of recorded
episode outcomes. -/
theorem C8_kit_success_monotone (successes : List Nat) (n i j : Nat)
    (hi7 : i < 7) (hij : i ≤ j) :
    ((DbcKitchen.kit_success n).getD i 0 = if i < n then 1 else 0) ∧
    DbcKitchen.p_metric successes j ≤ DbcKitchen.p_metric successes i := by
  constructor
  · rw [kit_success_getD]
    by_cases hn : i < n
    · simp [hi7, hn]
    · simp [hi7, hn]
  · unfold DbcKitchen.p_metric
    have hsum : (successes.map (fun num => (DbcKitchen.kit_success num).getD j 0)).sum ≤
        (successes.map (fun num => (DbcKitchen.kit_success num).getD i 0)).sum := by
      apply List.sum_le_sum
      intro num _
      rw [kit_success_getD, kit_success_getD]
      split_ifs with h1 h2 h2
      · exact le_refl _
      · exfalso
        omega
      · norm_num
      · exact le_refl _
    have hc : (0 : ℚ) ≤ (successes.length : ℚ) := by positivity
    exact div_le_div_of_nonneg_right hsum hc

/-- C9: for every index, the dp kitchen DatasetWrapper returns exactly the last Ta
entries of the underlying item's action array as "x0" (a suffix of length Ta, for
items with at least Ta actions) and the first To entries of its state array as
"condition_cfg"; its length equals the wrapped dataset's length, and any other
attribute access is delegated unchanged to the wrapped dataset. -/
theorem C9_dataset_wrapper {α β γ : Type} (ds : DpKitchen.PyDataset α β γ)
    (To Ta idx : Nat) (hTa : Ta ≤ ((ds.item idx).action).length) :
    (DpKitchen.DatasetWrapper.getItem ds To Ta idx).x0 =
      ((ds.item idx).action).drop (((ds.item idx).action).length - Ta) ∧
    ((DpKitchen.DatasetWrapper.getItem ds To Ta idx).x0).length = Ta ∧
    (DpKitchen.DatasetWrapper.getItem ds To Ta idx).x0 <:+ (ds.item idx).action ∧
    (DpKitchen.DatasetWrapper.getItem ds To Ta idx).condition_cfg =
      ((ds.item idx).state).take To ∧
    DpKitchen.DatasetWrapper.len ds = ds.length ∧
    (∀ a, DpKitchen.DatasetWrapper.getattr ds a = ds.attr a) := by
  refine ⟨rfl, ?_, ?_, rfl, rfl, fun a => rfl⟩
  · show ((((ds.item idx).action).drop (((ds.item idx).action).length - Ta))).length = Ta
    rw [List.length_drop]
    omega
  · exact List.drop_suffix _ _

/-- Witness for C9_dataset_wrapper on a concrete dataset, To = 2, Ta = 3, idx = 0. -/
theorem C9_dataset_wrapper_witness :
    (DpKitchen.DatasetWrapper.getItem sampleKitchenDs 2 3 0).x0 =
      ((sampleKitchenDs.item 0).action).drop
        (((sampleKitchenDs.item 0).action).length - 3) ∧
    ((DpKitchen.DatasetWrapper.getItem sampleKitchenDs 2 3 0).x0).length = 3 ∧
    (DpKitchen.DatasetWrapper.getItem sampleKitchenDs 2 3 0).x0 <:+
      (sampleKitchenDs.item 0).action ∧
    (DpKitchen.DatasetWrapper.getItem sampleKitchenDs 2 3 0).condition_cfg =
      ((sampleKitchenDs.item 0).state).take 2 ∧
    DpKitchen.DatasetWrapper.len sampleKitchenDs = sampleKitchenDs.length ∧
    (∀ a, DpKitchen.DatasetWrapper.getattr sampleKitchenDs a =
      sampleKitchenDs.attr a) :=
  C9_dataset_wrapper sampleKitchenDs 2 3 0 (by decide)

/-- C10: after the dp3 libero padding/truncation step the language embedding and
mask always have exactly 32 tokens, for every encoder output length: shorter
outputs are zero-padded (zero rows for the embedding, zero entries for the mask),
longer outputs are truncated to the first 32 entries, and length-32 outputs are
unchanged. -/
theorem C10_language_pad (d : Nat) (emb : List (List ℚ)) (mask : List ℚ)
    (h : mask.length = emb.length) :
    ((Dp3Libero.padTruncLang d emb mask).1).length = 32 ∧
    ((Dp3Libero.padTruncLang d emb mask).2).length = 32 ∧
    (emb.length < 32 →
      Dp3Libero.padTruncLang d emb mask =
        (emb ++ List.replicate (32 - emb.length) (List.replicate d 0),
         mask ++ List.replicate (32 - mask.length) 0)) ∧
    (32 < emb.length →
      Dp3Libero.padTruncLang d emb mask = (emb.take 32, mask.take 32)) ∧
    (emb.length = 32 → Dp3Libero.padTruncLang d emb mask = (emb, mask)) := by
  unfold Dp3Libero.padTruncLang
  by_cases h1 : emb.length < 32
  · rw [if_pos h1]
    refine ⟨?_, ?_, fun _ => rfl, fun h2 => by omega, fun h2 => by omega⟩
    · rw [List.length_append, List.length_replicate]
      omega
    · rw [List.length_append, List.length_replicate]
      omega
  · by_cases h2 : 32 < emb.length
    · rw [if_neg h1, if_pos h2]
      refine ⟨?_, ?_, fun h3 => by omega, fun _ => rfl, fun h3 => by omega⟩
      · rw [List.length_take]
        omega
      · rw [List.length_take]
        omega
    · rw [if_neg h1, if_neg h2]
      refine ⟨?_, ?_, fun h3 => by omega, fun h3 => by omega, fun _ => rfl⟩
      · show emb.length = 32
        omega
      · show mask.length = 32
        omega

/-- Witness for C10_language_pad on a 1-token embedding of width 2. -/
theorem C10_language_pad_witness :
    ((Dp3Libero.padTruncLang 2 [[1, 2]] [1]).1).length = 32 ∧
    ((Dp3Libero.padTruncLang 2 [[1, 2]] [1]).2).length = 32 :=
  ⟨(C10_language_pad 2 [[1, 2]] [1] (by decide)).1,
   (C10_language_pad 2 [[1, 2]] [1] (by decide)).2.1⟩

/-- C3: PointNetAndT5PCLanguageCondition.forward raises its AssertionError exactly
when the condition dict contains neither "language" nor "language_embedding" (a
missing "language_mask" alone never triggers it); when "language" is present the
embedding and mask are computed from it by the frozen T5 encoder and the returned
seq_condition_mask is the negation of that attention mask; when only the
embedding is given, the returned seq_condition_mask is the negation of the given
mask whenever one exists (and None otherwise). -/
theorem C3_forward_assertion {PC Emb V S : Type}
    (languageEncode : List String → Emb × List Bool)
    (pcBranch : PC → V) (t5Branch : Emb → S)
    (cond : Dp3Libero.PCLangCondDict PC Emb) :
    ((∃ e, Dp3Libero.PCLangForward languageEncode pcBranch t5Branch cond =
        .error e) ↔ (cond.language = none ∧ cond.language_embedding = none)) ∧
    (∀ lang, cond.language = some lang →
      Dp3Libero.PCLangForward languageEncode pcBranch t5Branch cond =
        .ok ⟨pcBranch cond.pointcloud, t5Branch (languageEncode lang).1,
          some (((languageEncode lang).2).map not)⟩) ∧
    (∀ emb, cond.language = none → cond.language_embedding = some emb →
      Dp3Libero.PCLangForward languageEncode pcBranch t5Branch cond =
        .ok ⟨pcBranch cond.pointcloud, t5Branch emb,
          cond.language_mask.map (List.map not)⟩) := by
  obtain ⟨pc, lang, lemb, lmask⟩ := cond
  refine ⟨?_, ?_, ?_⟩
  · cases lang <;> cases lemb <;> simp [Dp3Libero.PCLangForward]
  · intro l hl
    cases lang with
    | none => exact absurd hl (by simp)
    | some l0 =>
      have hl0 : l0 = l := by
        simpa using hl
      subst hl0
      cases lemb <;> rfl
  · intro e hl he
    cases lang with
    | some l0 => exact absurd hl (by simp)
    | none =>
      cases lemb with
      | none => exact absurd he (by simp)
      | some e0 =>
        have he0 : e0 = e := by
          simpa using he
        subst he0
        rfl

/-- Witness for C3_forward_assertion: a dict carrying a language sentence. -/
theorem C3_forward_assertion_witness :
    Dp3Libero.PCLangForward (fun l => (l.length, [true, true, false]))
      (fun p : Nat => p) (fun e : Nat => e) ⟨5, some ["put the bowl"], none, none⟩ =
      .ok ⟨5, 1, some [false, false, true]⟩ := by
  have h := (C3_forward_assertion (fun l => (l.length, [true, true, false]))
      (fun p : Nat => p) (fun e : Nat => e)
      ⟨5, some ["put the bowl"], none, none⟩).2.1 ["put the bowl"] rfl
  simpa using h

/-- An inner step never touches the prior. -/
theorem innerStep_prior {RawObs Obs Prior : Type} (normalize : RawObs → Obs)
    (stepObs : Nat → RawObs) (st : DpKitchen.EvalState Obs Prior) (i : Nat) :
    (DpKitchen.innerStep normalize stepObs st i).prior = st.prior := by
  unfold DpKitchen.innerStep
  split <;> rfl

/-- The inner loop never touches the prior. -/
theorem innerLoop_prior {RawObs Obs Prior : Type} (normalize : RawObs → Obs)
    (stepObs : Nat → RawObs) (doneAfter : Nat → Bool) :
    ∀ (l : List Nat) (st : DpKitchen.EvalState Obs Prior),
      ((DpKitchen.innerLoop normalize stepObs doneAfter l st).1).prior = st.prior := by
  intro l
  induction l with
  | nil =>
    intro st
    rfl
  | cons i rest ih =>
    intro st
    rw [DpKitchen.innerLoop]
    dsimp only
    by_cases hd : doneAfter i = true
    · rw [if_pos hd]
      exact innerStep_prior normalize stepObs st i
    · rw [if_neg hd]
      rw [ih (DpKitchen.innerStep normalize stepObs st i)]
      exact innerStep_prior normalize stepObs st i

/-- The executed inner steps form an initial segment of the step list. -/
theorem innerLoop_executed {RawObs Obs Prior : Type} (normalize : RawObs → Obs)
    (stepObs : Nat → RawObs) (doneAfter : Nat → Bool) :
    ∀ (l : List Nat) (st : DpKitchen.EvalState Obs Prior),
      (DpKitchen.innerLoop normalize stepObs doneAfter l st).2 <+: l := by
  intro l
  induction l with
  | nil =>
    intro st
    exact List.prefix_refl _
  | cons i rest ih =>
    intro st
    rw [DpKitchen.innerLoop]
    dsimp only
    by_cases hd : doneAfter i = true
    · rw [if_pos hd]
      exact ⟨rest, rfl⟩
    · rw [if_neg hd]
      exact List.cons_prefix_cons.mpr ⟨rfl, ih _⟩

/-- With no early termination, the inner loop is a fold of the inner steps and
executes the whole step list. -/
theorem innerLoop_no_done {RawObs Obs Prior : Type} (normalize : RawObs → Obs)
    (stepObs : Nat → RawObs) :
    ∀ (l : List Nat) (st : DpKitchen.EvalState Obs Prior),
      DpKitchen.innerLoop normalize stepObs (fun _ => false) l st =
        (l.foldl (DpKitchen.innerStep normalize stepObs) st, l) := by
  intro l
  induction l with
  | nil =>
    intro st
    rfl
  | cons i rest ih =>
    intro st
    rw [DpKitchen.innerLoop]
    dsimp only
    rw [if_neg (by simp)]
    rw [ih (DpKitchen.innerStep normalize stepObs st i)]
    rfl

/-- C6: in the dp kitchen closed-loop evaluation, of every sampled action chunk of
length Ta = 16 only the first num_act_exec = 8 actions are executed before
resampling (fewer if all environments finish early: the executed steps are always
an initial segment of range num_act_exec); the buffer update is receding-horizon:
on inner step i nothing is written when i < num_act_exec - To, and otherwise the
new normalized observation goes into buffer slot i - num_act_exec + To, leaving
every other slot and the prior unchanged; after a full inner loop the buffer
holds exactly the To = 2 most recent normalized observations. -/
theorem C6_receding_horizon {RawObs Obs Prior : Type}
    (normalize : RawObs → Obs) (stepObs : Nat → RawObs) (doneAfter : Nat → Bool)
    (st : DpKitchen.EvalState Obs Prior) (h : st.obs.length = DpKitchen.To) :
    (DpKitchen.Ta = 16 ∧ DpKitchen.num_act_exec = 8 ∧ DpKitchen.To = 2) ∧
    (DpKitchen.runInner normalize stepObs doneAfter st).2 <+:
      List.range DpKitchen.num_act_exec ∧
    ((DpKitchen.runInner normalize stepObs doneAfter st).2).length ≤
      DpKitchen.num_act_exec ∧
    ((DpKitchen.runInner normalize stepObs doneAfter st).1).prior = st.prior ∧
    (∀ i, i < DpKitchen.num_act_exec - DpKitchen.To →
      DpKitchen.innerStep normalize stepObs st i = st) ∧
    (∀ i, DpKitchen.num_act_exec - DpKitchen.To ≤ i →
      (DpKitchen.innerStep normalize stepObs st i).obs =
        st.obs.set (i + DpKitchen.To - DpKitchen.num_act_exec)
          (normalize (stepObs i)) ∧
      ∀ j, j ≠ i + DpKitchen.To - DpKitchen.num_act_exec →
        ((DpKitchen.innerStep normalize stepObs st i).obs)[j]? =
          (st.obs)[j]?) ∧
    ((∀ i, doneAfter i = false) →
      (DpKitchen.runInner normalize stepObs doneAfter st).2 =
        List.range DpKitchen.num_act_exec ∧
      ((DpKitchen.runInner normalize stepObs doneAfter st).1).obs =
        ((List.range DpKitchen.num_act_exec).drop
          (DpKitchen.num_act_exec - DpKitchen.To)).map
            (fun i => normalize (stepObs i))) := by
  have hpre := innerLoop_executed normalize stepObs doneAfter
    (List.range DpKitchen.num_act_exec) st
  refine ⟨⟨rfl, rfl, rfl⟩, hpre, ?_, ?_, ?_, ?_, ?_⟩
  · have hlen := hpre.length_le
    rw [List.length_range] at hlen
    exact hlen
  · exact innerLoop_prior normalize stepObs doneAfter _ st
  · intro i hi
    have hi6 : i < 6 := hi
    unfold DpKitchen.innerStep
    rw [if_neg ?_]
    show ¬ (6 ≤ i)
    omega
  · intro i hi
    have hi6 : 6 ≤ i := hi
    constructor
    · unfold DpKitchen.innerStep
      rw [if_pos ?_]
      show 6 ≤ i
      exact hi6
    · intro j hj
      unfold DpKitchen.innerStep
      rw [if_pos ?_]
      · exact List.getElem?_set_ne (Ne.symm hj)
      · show 6 ≤ i
        exact hi6
  · intro hdone
    have hfun : doneAfter = fun _ => false := funext hdone
    subst hfun
    rw [DpKitchen.runInner, innerLoop_no_done]
    obtain ⟨o, pr⟩ := st
    have h2 : o.length = 2 := h
    obtain ⟨a, b, rfl⟩ := List.length_eq_two.mp h2
    exact ⟨rfl, rfl⟩

/-- Witness for C6_receding_horizon on a concrete buffer of length To. -/
theorem C6_receding_horizon_witness :
    (DpKitchen.Ta = 16 ∧ DpKitchen.num_act_exec = 8 ∧ DpKitchen.To = 2) ∧
    (DpKitchen.runInner (fun r : Nat => r + 100) (fun i => i)
        (fun _ => false) ⟨[0, 1], 42⟩).2 <+:
      List.range DpKitchen.num_act_exec ∧
    ((DpKitchen.runInner (fun r : Nat => r + 100) (fun i => i)
        (fun _ => false) (⟨[0, 1], 42⟩ : DpKitchen.EvalState Nat Nat)).2).length ≤
      DpKitchen.num_act_exec ∧
    ((DpKitchen.runInner (fun r : Nat => r + 100) (fun i => i)
        (fun _ => false) (⟨[0, 1], 42⟩ : DpKitchen.EvalState Nat Nat)).1).prior = 42 ∧
    (∀ i, i < DpKitchen.num_act_exec - DpKitchen.To →
      DpKitchen.innerStep (fun r : Nat => r + 100) (fun i => i)
        (⟨[0, 1], 42⟩ : DpKitchen.EvalState Nat Nat) i = ⟨[0, 1], 42⟩) ∧
    (∀ i, DpKitchen.num_act_exec - DpKitchen.To ≤ i →
      (DpKitchen.innerStep (fun r : Nat => r + 100) (fun i => i)
        (⟨[0, 1], 42⟩ : DpKitchen.EvalState Nat Nat) i).obs =
        [0, 1].set (i + DpKitchen.To - DpKitchen.num_act_exec) (i + 100) ∧
      ∀ j, j ≠ i + DpKitchen.To - DpKitchen.num_act_exec →
        ((DpKitchen.innerStep (fun r : Nat => r + 100) (fun i => i)
          (⟨[0, 1], 42⟩ : DpKitchen.EvalState Nat Nat) i).obs)[j]? =
          ([0, 1] : List Nat)[j]?) ∧
    ((∀ i, (fun _ : Nat => false) i = false) →
      (DpKitchen.runInner (fun r : Nat => r + 100) (fun i => i)
        (fun _ => false) (⟨[0, 1], 42⟩ : DpKitchen.EvalState Nat Nat)).2 =
        List.range DpKitchen.num_act_exec ∧
      ((DpKitchen.runInner (fun r : Nat => r + 100) (fun i => i)
        (fun _ => false) (⟨[0, 1], 42⟩ : DpKitchen.EvalState Nat Nat)).1).obs =
        ((List.range DpKitchen.num_act_exec).drop
          (DpKitchen.num_act_exec - DpKitchen.To)).map
            (fun i => (fun r : Nat => r + 100) ((fun i => i) i))) :=
  C6_receding_horizon (fun r : Nat => r + 100) (fun i => i) (fun _ => false)
    ⟨[0, 1], 42⟩ (by decide)

/-- Witness for C8_kit_success_monotone at successes = [3, 1], n = 2, i = 0, j = 1. -/
theorem C8_kit_success_monotone_witness :
    ((DbcKitchen.kit_success 2).getD 0 0 = if 0 < 2 then 1 else 0) ∧
    DbcKitchen.p_metric [3, 1] 1 ≤ DbcKitchen.p_metric [3, 1] 0 :=
  C8_kit_success_monotone [3, 1] 2 0 1 (by decide) (by decide)
